import Mathlib

/-!
# Verification of the webitel_sdk session layer

A shallow embedding of the repository's socket client layer:
the sequence-numbered request correlator (`Client.request` / the reply
branch of `Client.onMessage`), the inbound-message router
(`Client.onMessage`), the call registry (`Client.handleCallEvents`) and
the call state machine (`Call` and its methods from `call.ts`).

Modelling conventions:
* JavaScript `Map<K, V>` objects are modelled as association lists
  (`alookup` / `aset` / `aerase`); `Map.set` replaces the value at an
  existing key in place and otherwise appends, `Map.delete` removes the
  binding of the key.
* JavaScript object identity: the call registry is split into a heap
  (`objId → Call`) plus a store (`call id string → objId`); `new Call(...)`
  allocates a fresh `objId`, in-place mutation rewrites the heap entry at
  an unchanged `objId`.
* Timestamps are epoch milliseconds, modelled as `Int` (JS numbers used
  integrally here); `0` is the "unset" sentinel exactly as in the source.
* `undefined` string fields are modelled as `""`, `undefined` objects as
  `Option`, matching the truthiness tests of the source.
* The SIP phone stack and media streams are external collaborators: the
  stream handles are opaque (`Option Nat`), and the constructor's
  `setSip(client.phone...)` lookup is modelled as finding no session,
  which leaves the call's `sip`/stream fields `null` as in `setSip`.
-/

/-- Lookup: `alookup k l` is `Map.get k` on an association list. -/
def alookup {α β : Type} [DecidableEq α] (k : α) : List (α × β) → Option β
  | [] => none
  | p :: t => if p.1 = k then some p.2 else alookup k t

/-- Insertion: `aset k v l` is `Map.set k v`: replace the first binding of `k` in
place, otherwise append the new binding. -/
def aset {α β : Type} [DecidableEq α] (k : α) (v : β) : List (α × β) → List (α × β)
  | [] => [(k, v)]
  | p :: t => if p.1 = k then (k, v) :: t else p :: aset k v t

/-- Deletion: `aerase k l` is `Map.delete k`: drop every binding of `k` (a real
`Map` holds at most one). -/
def aerase {α β : Type} [DecidableEq α] (k : α) : List (α × β) → List (α × β)
  | [] => []
  | p :: t => if p.1 = k then aerase k t else p :: aerase k t

/-- The keys of an association list are pairwise distinct (always true of
a JS `Map`). -/
def NodupKeys {α β : Type} (l : List (α × β)) : Prop :=
  (l.map Prod.fst).Nodup

/-- Interface `CallEndpoint` from `call.ts` (`type` renamed to `etype`). -/
structure CallEndpoint where
  etype : String
  number : Option String
  name : Option String
deriving DecidableEq

/-- The `CallInfo` payload of a creation (ringing) event (`call.ts`);
`from` is renamed to `callFrom`. -/
structure CallInfoPayload where
  sip_id : Option String
  parent_id : String
  direction : String
  destination : String
  callFrom : CallEndpoint
  toEp : Option CallEndpoint
deriving DecidableEq

/-- The `CallBridged` payload of a bridge event (`call.ts`). -/
structure CallBridgedPayload where
  bridged_id : String
  toEp : Option CallEndpoint
deriving DecidableEq

/-- The `CallHangup` payload of a hangup event (`call.ts`). -/
structure CallHangupPayload where
  cause : String
  sip : Int
deriving DecidableEq

/-- The dynamically-typed `data` field of a call event; the source casts
it to the payload type matching the event's action. `empty` stands for a
payload carrying none of the cast fields. -/
inductive EventData where
  | info (i : CallInfoPayload)
  | bridged (b : CallBridgedPayload)
  | hangup (h : CallHangupPayload)
  | execute (application : String)
  | dtmf (digit : String)
  | empty
deriving DecidableEq

/-- Interface `CallEventData` from `call.ts` (`cc_app_id` omitted, unused). -/
structure CallEventData where
  id : String
  app_id : String
  timestamp : Int
  event : String
  data : EventData
deriving DecidableEq

/-- An endpoint whose fields are all absent (a cast of a payload that does
not carry them reads `undefined`). -/
def emptyEndpoint : CallEndpoint :=
  { etype := "", number := none, name := none }

/-- Cast `e.data as CallInfo`: fields read as `undefined` when absent. -/
def asInfo : EventData → CallInfoPayload
  | .info i => i
  | _ => { sip_id := none, parent_id := "", direction := "", destination := "",
           callFrom := emptyEndpoint, toEp := none }

/-- Cast `s.data as CallBridged`. -/
def asBridged : EventData → CallBridgedPayload
  | .bridged b => b
  | _ => { bridged_id := "", toEp := none }

/-- Cast `s.data as CallHangup`. -/
def asHangup : EventData → CallHangupPayload
  | .hangup h => h
  | _ => { cause := "", sip := 0 }

/-- Cast `(s.data as CallEventExecute).application`. -/
def asExecute : EventData → String
  | .execute a => a
  | _ => ""

/-- Cast `(s.data as CallEventDTMF).digit`. -/
def asDtmf : EventData → String
  | .dtmf d => d
  | _ => ""

/-- The `Call` entity of `call.ts`. Fields not touched by any lifecycle
transition or permission predicate under verification (`params`,
`payload`, `queue`, `toNumber`, `toName`, `screen`, the raw SIP session)
are omitted; media stream handles are opaque. `_muted` is renamed
`mutedFlag`, `from` is renamed `callFrom`. -/
structure Call where
  id : String
  appId : String
  sipId : Option String
  state : String
  direction : String
  destination : String
  callFrom : CallEndpoint
  toEp : Option CallEndpoint
  createdAt : Int
  answeredAt : Int
  bridgedAt : Int
  hangupAt : Int
  hangupCause : String
  hangupSipCode : Int
  parentId : String
  bridgedId : String
  mutedFlag : Bool
  digits : List String
  applications : List String
  voice : Bool
  peerStreams : Option Nat
  localStreams : Option Nat
deriving DecidableEq

/-- Method `Call.setState`: `this.state = s.event`. -/
def setState (c : Call) (s : CallEventData) : Call :=
  { c with state := s.event }

/-- The `Call` constructor: initialises the timers and flags, records the
creation payload (`setInfo`) and applies `setState` to the creation
event. The `setSip` branch is modelled as finding no SIP session (the
phone collaborator), leaving the stream handles `null`. -/
def mkCall (e : CallEventData) : Call :=
  let info := asInfo e.data
  { id := e.id
    appId := e.app_id
    sipId := info.sip_id
    state := e.event
    direction := info.direction
    destination := info.destination
    callFrom := info.callFrom
    toEp := info.toEp
    createdAt := e.timestamp
    answeredAt := 0
    bridgedAt := 0
    hangupAt := 0
    hangupCause := ""
    hangupSipCode := 0
    parentId := info.parent_id
    bridgedId := ""
    mutedFlag := false
    digits := []
    applications := []
    voice := true
    peerStreams := none
    localStreams := none }

/-- Method `Call.setActive`: on the first active event (`!this.answeredAt`) an
inbound call gets `bridgedAt` and, when a parent exists, `bridgedId`;
then `answeredAt` is set; every active event applies `setState`. -/
def setActive (c : Call) (e : CallEventData) : Call :=
  let c1 :=
    if c.answeredAt = 0 then
      let c2 :=
        if c.direction = "inbound" then
          let cb := { c with bridgedAt := e.timestamp }
          if c.parentId ≠ "" then { cb with bridgedId := c.parentId } else cb
        else c
      { c2 with answeredAt := e.timestamp }
    else c
  setState c1 e

/-- Method `Call.setBridged`: set `bridgedAt` when unset, record the counterpart
id and, when provided, the destination endpoint. The source does not call
`setState` here (and assigns `bridgedId` twice, a no-op). -/
def setBridged (c : Call) (s : CallEventData) : Call :=
  let bridged := asBridged s.data
  let c1 := if c.bridgedAt = 0 then { c with bridgedAt := s.timestamp } else c
  let c2 := { c1 with bridgedId := bridged.bridged_id }
  match bridged.toEp with
  | some t => { c2 with toEp := some t }
  | none => c2

/-- Method `Call.setHold`. -/
def setHold (c : Call) (e : CallEventData) : Call :=
  setState c e

/-- Method `Call.setVoice`. -/
def setVoice (c : Call) : Call :=
  { c with voice := true }

/-- Method `Call.setSilence`. -/
def setSilence (c : Call) : Call :=
  { c with voice := false }

/-- Method `Call.setExecute`: appends to the application log. -/
def setExecute (c : Call) (application : String) : Call :=
  { c with applications := c.applications ++ [application] }

/-- Method `Call.addDigit`: appends to the digit log. -/
def addDigit (c : Call) (digit : String) : Call :=
  { c with digits := c.digits ++ [digit] }

/-- Method `Call.setHangup`: record timestamp, cause and protocol code, force
voice activity off, clear the remote streams, apply `setState`. -/
def setHangup (c : Call) (s : CallEventData) : Call :=
  let h := asHangup s.data
  setState { c with hangupAt := s.timestamp
                    hangupCause := h.cause
                    hangupSipCode := h.sip
                    voice := false
                    peerStreams := none } s

/-- Getter `Call.allowHangup`. -/
def allowHangup (c : Call) : Bool :=
  c.hangupAt == 0

/-- Getter `Call.allowHold`: the may-hold predicate. -/
def allowHold (c : Call) : Bool :=
  c.hangupAt == 0 && (c.state == "active" || c.state == "bridge")

/-- Getter `Call.allowUnHold`: the may-unhold predicate. -/
def allowUnHold (c : Call) : Bool :=
  c.hangupAt == 0 && c.state == "hold"

/-- Getter `Call.allowAnswer`. -/
def allowAnswer (c : Call) : Bool :=
  c.hangupAt == 0 && c.answeredAt == 0

/-- Getter `Call.allowDtmf`. -/
def allowDtmf (c : Call) : Bool :=
  decide (0 < c.answeredAt) && allowHangup c

/-- Getter `Call.muted`. -/
def muted (c : Call) : Bool :=
  c.mutedFlag

/-- Rounding: `Math.round (ms / 1000)` on an integral number of milliseconds:
`Math.round x = ⌊x + 1/2⌋`, so this is `⌊(2·ms + 1000) / 2000⌋`. -/
def mathRound (ms : Int) : Int :=
  Int.fdiv (2 * ms + 1000) 2000

/-- Getter `Call.duration`: not yet hung up, `now` minus created; afterwards,
hangup minus created — both rounded to whole seconds (`Date.now()` is
passed in explicitly as `now`). -/
def duration (c : Call) (now : Int) : Int :=
  if c.hangupAt = 0 then
    mathRound (now - c.createdAt)
  else
    mathRound (c.hangupAt - c.createdAt)

/-- Method `Call.hold`: throws `'Call is hold'` when the state is already hold,
otherwise issues exactly one `call_hold` request with the call's id and
application id. `.error` models the locally rejected promise (no request
sent), `.ok` carries the single request sent. -/
def hold (c : Call) : Except String (String × String × String) :=
  if c.state = "hold" then .error "Call is hold"
  else .ok ("call_hold", c.id, c.appId)

/-- Method `Call.unHold`: throws `'Call is active'` when the state is not hold,
otherwise issues exactly one `call_unhold` request. -/
def unHold (c : Call) : Except String (String × String × String) :=
  if c.state ≠ "hold" then .error "Call is active"
  else .ok ("call_unhold", c.id, c.appId)

/-- Method `Call.mute`: awaits the `call_mute` request first and only then
assigns `_muted`; a rejected request makes the `await` throw, so the flag
keeps its previous value and the error propagates. The awaited server
outcome is passed in as `res`. -/
def mute (c : Call) (m : Bool) (res : Except String String) :
    Call × Except String String :=
  match res with
  | .ok r => ({ c with mutedFlag := m }, .ok r)
  | .error err => (c, .error err)

/-- The value with which a pending request's future was settled. -/
inductive Settlement where
  | resolved (payload : String)
  | rejected (err : String)
deriving DecidableEq

/-- The request-correlator fragment of `Client`: `reqSeq` is the sequence
counter, `pending` the keys of the `queueRequest` map (the stored
callbacks are the settlement capabilities, identified by their key), and
`settled` the log of settlements performed so far, in order. -/
structure CorrState where
  reqSeq : Nat
  pending : List Nat
  settled : List (Nat × Settlement)
deriving DecidableEq

/-- The correlator state of a freshly constructed `Client`. -/
def initCorr : CorrState :=
  { reqSeq := 0, pending := [], settled := [] }

/-- Method `Client.request`: `queueRequest.set(++reqSeq, {resolve, reject})`; the
frame `{ seq, action, data }` handed to the socket carries the new
counter value, which is the id assigned to this request. -/
def request (st : CorrState) : CorrState :=
  { st with reqSeq := st.reqSeq + 1, pending := st.pending ++ [st.reqSeq + 1] }

/-- The reply branch of `Client.onMessage`: if `queueRequest.has(seq)`,
the entry is deleted and the promise resolved (status `OK`) or rejected
(otherwise); an unknown sequence id leaves everything unchanged (the
message was only logged). -/
def complete (st : CorrState) (sid : Nat) (status : String)
    (payload err : String) : CorrState :=
  if sid ∈ st.pending then
    { st with pending := st.pending.erase sid
              settled := st.settled ++
                [(sid, if status = "OK" then Settlement.resolved payload
                       else Settlement.rejected err)] }
  else st

/-- One step of correlator traffic: an `issue` by a caller or an inbound
reply frame. -/
inductive Step where
  | issue
  | reply (sid : Nat) (status : String) (payload err : String)
deriving DecidableEq

/-- Apply one step to the correlator. -/
def runStep (st : CorrState) : Step → CorrState
  | .issue => request st
  | .reply sid status payload err => complete st sid status payload err

/-- Run a trace of steps from the freshly constructed client. -/
def runTrace (tr : List Step) : CorrState :=
  tr.foldl runStep initCorr

/-- Number of `issue` steps in a trace. -/
def countIssues : List Step → Nat
  | [] => 0
  | .issue :: t => countIssues t + 1
  | .reply _ _ _ _ :: t => countIssues t

/-- The sequence ids handed out by the `issue` steps of a trace run from
`st`, in order of issue. -/
def issuedIdsFrom (st : CorrState) : List Step → List Nat
  | [] => []
  | .issue :: t => (st.reqSeq + 1) :: issuedIdsFrom (runStep st .issue) t
  | .reply sid status p e :: t => issuedIdsFrom (runStep st (.reply sid status p e)) t

/-- The sequence ids handed out over a trace of the fresh client. -/
def issuedIds (tr : List Step) : List Nat :=
  issuedIdsFrom initCorr tr

/-- Enumeration `seqFrom s n = [s, s+1, ..., s+n-1]`: consecutive ids from `s`. -/
def seqFrom (s : Nat) : Nat → List Nat
  | 0 => []
  | n + 1 => s :: seqFrom (s + 1) n

/-- Internal invariant of the correlator state (holds for every reachable
state): pending ids are distinct and lie in `[1, reqSeq]`, settled ids
are no longer pending, never exceed `reqSeq`, and are distinct. -/
def CorrInv (st : CorrState) : Prop :=
  st.pending.Nodup ∧
  (∀ s ∈ st.pending, 1 ≤ s ∧ s ≤ st.reqSeq) ∧
  (∀ p ∈ st.settled, p.1 ∉ st.pending ∧ p.1 ≤ st.reqSeq) ∧
  (st.settled.map Prod.fst).Nodup

/-- The call-registry fragment of `Client`: `callStore` maps call ids to
heap locations, `heap` holds the live `Call` objects, `nextObj` is the
allocator for fresh locations. -/
structure RegState where
  nextObj : Nat
  heap : List (Nat × Call)
  callStore : List (String × Nat)
deriving DecidableEq

/-- The registry of a freshly constructed `Client`. -/
def initReg : RegState :=
  { nextObj := 0, heap := [], callStore := [] }

/-- Method `Client.callById`. -/
def callObjById (st : RegState) (id : String) : Option Nat :=
  alookup id st.callStore

/-- Method `Client.callById`, dereferenced to the stored `Call`. -/
def callById (st : RegState) (id : String) : Option Call :=
  match alookup id st.callStore with
  | some obj => alookup obj st.heap
  | none => none

/-- The shared shape of the non-creation cases of
`Client.handleCallEvents`: look the call up by the event id, mutate the
existing object in place when found, do nothing otherwise. The returned
option is the heap location of the call the handler will emit (`if
(call) eventHandler.emit(...)`). The inner `none` case (a store entry
whose location is missing from the heap) is unreachable for states built
by the client. -/
def updateExisting (st : RegState) (id : String) (f : Call → Call) :
    RegState × Option Nat :=
  match alookup id st.callStore with
  | none => (st, none)
  | some obj =>
    match alookup obj st.heap with
    | none => (st, none)
    | some c => ({ st with heap := aset obj (f c) st.heap }, some obj)

/-- The `Ringing` case of `Client.handleCallEvents`: `new Call(this,
event)` allocates a fresh object and `callStore.set(call.id, call)`
inserts it, replacing any binding the id already had. (`checkAutoAnswer`
only talks to the external phone collaborator.) -/
def insertRinging (st : RegState) (e : CallEventData) : RegState × Option Nat :=
  let c := mkCall e
  ({ nextObj := st.nextObj + 1
     heap := aset st.nextObj c st.heap
     callStore := aset c.id st.nextObj st.callStore }, some st.nextObj)

/-- The `Hangup` case of `Client.handleCallEvents`: apply `setHangup` to
the registered call, then delete its registry entry; the object itself
stays on the heap (any holder's reference stays valid). -/
def removeOnHangup (st : RegState) (e : CallEventData) : RegState × Option Nat :=
  match alookup e.id st.callStore with
  | none => (st, none)
  | some obj =>
    match alookup obj st.heap with
    | none => (st, none)
    | some c =>
      ({ st with heap := aset obj (setHangup c e) st.heap
                 callStore := aerase e.id st.callStore }, some obj)

/-- Method `Client.handleCallEvents` (src/src/socket/client.ts): the `switch` on
`event.event` over the `CallActions` values, with `throw new
Error('Unhandled action')` as the default. The returned option is the
heap location of the emitted call, `none` when no handler fired. -/
def handleCallEvents (st : RegState) (e : CallEventData) :
    Except String (RegState × Option Nat) :=
  if e.event = "ringing" then .ok (insertRinging st e)
  else if e.event = "active" then .ok (updateExisting st e.id (fun c => setActive c e))
  else if e.event = "bridge" then .ok (updateExisting st e.id (fun c => setBridged c e))
  else if e.event = "execute" then .ok (updateExisting st e.id (fun c => setExecute c (asExecute e.data)))
  else if e.event = "dtmf" then .ok (updateExisting st e.id (fun c => addDigit c (asDtmf e.data)))
  else if e.event = "voice" then .ok (updateExisting st e.id (fun c => setVoice c))
  else if e.event = "silence" then .ok (updateExisting st e.id (fun c => setSilence c))
  else if e.event = "hold" then .ok (updateExisting st e.id (fun c => setHold c e))
  else if e.event = "hangup" then .ok (removeOnHangup st e)
  else .error "Unhandled action"

/-- The registry state after processing a call event: the throwing
default branch happens before any mutation, so it leaves the registry as
it was. -/
def runCallEvent (st : RegState) (e : CallEventData) : RegState :=
  match handleCallEvents st e with
  | .ok (st1, _) => st1
  | .error _ => st

/-- The event dispatcher's subscriber table: `(channel, handler)` pairs
in registration order; handlers are identified by opaque tokens. Models
the `ee-ts` `EventEmitter` used by `Client` as described by the event
dispatcher contract (`.on(channel, handler)` appends a subscriber). -/
def onChannel (hs : List (String × Nat)) (channel : String) (h : Nat) :
    List (String × Nat) :=
  hs ++ [(channel, h)]

/-- Publication `emit`: the handlers a publication on `channel` invokes, in order. -/
def emit (hs : List (String × Nat)) (channel : String) : List Nat :=
  (hs.filter (fun p => p.1 == channel)).map Prod.snd

/-- Method `Client.unSubscribe`: issues an `un_subscribe_<action>` request; the
three handler-removal lines in the source are commented out, so the
subscriber table is returned unchanged. -/
def unSubscribe (hs : List (String × Nat)) (action : String) (_hd : Nat) :
    List (String × Nat) × String :=
  (hs, "un_subscribe_" ++ action)

/-- An inbound frame (`Message` from `socket.ts`): `seq_reply = 0` models
an absent back-reference (`message.seq_reply! > 0` is false for
`undefined`); `callData` is `message.data.call`, present on call events. -/
structure Message where
  seq_reply : Nat
  event : String
  status : String
  payload : String
  error : String
  callData : Option CallEventData
deriving DecidableEq

/-- A call event cast out of a message that carries none
(`message.data.call as CallEventData`). -/
def emptyCallEvent : CallEventData :=
  { id := "", app_id := "", timestamp := 0, event := "", data := .empty }

/-- The full client state touched by `Client.onMessage`: the correlator,
the call registry, the session-bootstrap flag set by the `hello` handler
and the operational log. -/
structure ClientState where
  corr : CorrState
  reg : RegState
  connected : Bool
  log : List String
deriving DecidableEq

/-- Method `Client.onMessage`: replies (positive `seq_reply`) go to the
correlator; events dispatch on `message.event` — `hello` runs the
session bootstrap, `call` runs `handleCallEvents` (whose `throw`
propagates), `user_state` / `sip` / `agent_status` only fan out to the
external dispatcher, and an unrecognized name is logged
(`log.error('event ... not handler')`), not thrown. -/
def onMessage (st : ClientState) (m : Message) : Except String ClientState :=
  if 0 < m.seq_reply then
    .ok { st with corr := complete st.corr m.seq_reply m.status m.payload m.error }
  else if m.event = "hello" then .ok { st with connected := true }
  else if m.event = "call" then
    match handleCallEvents st.reg (m.callData.getD emptyCallEvent) with
    | .ok (reg1, _) => .ok { st with reg := reg1 }
    | .error msg => .error msg
  else if m.event = "user_state" then .ok st
  else if m.event = "sip" then .ok st
  else if m.event = "agent_status" then .ok st
  else .ok { st with log := st.log ++ ["event " ++ m.event ++ " not handler"] }

/-- Whether an `Except` ran without throwing. -/
def exceptOk {ε α : Type} : Except ε α → Bool
  | .ok _ => true
  | .error _ => false

/-- The call actions `Client.handleCallEvents` has a case for. -/
def handledActions : List String :=
  ["ringing", "active", "bridge", "execute", "dtmf", "voice", "silence",
   "hold", "hangup"]

/-- The creation event of the §8 example call `c1` (inbound, destination
`100`, caller number `555`). -/
def ringEvt : CallEventData :=
  { id := "c1", app_id := "n1", timestamp := 1000, event := "ringing",
    data := .info { sip_id := none, parent_id := "", direction := "inbound",
                    destination := "100",
                    callFrom := { etype := "", number := some "555", name := none },
                    toEp := none } }

/-- A second ringing event for the same id `c1`. -/
def ringEvt2 : CallEventData :=
  { id := "c1", app_id := "n1", timestamp := 1002, event := "ringing",
    data := .info { sip_id := none, parent_id := "", direction := "inbound",
                    destination := "100",
                    callFrom := { etype := "", number := some "555", name := none },
                    toEp := none } }

/-- The §8 example active event for `c1`. -/
def activeEvt : CallEventData :=
  { id := "c1", app_id := "n1", timestamp := 1005, event := "active", data := .empty }

/-- A later active event for `c1`. -/
def activeEvt2 : CallEventData :=
  { id := "c1", app_id := "n1", timestamp := 1008, event := "active", data := .empty }

/-- A bridge event for `c1` with counterpart `c2`. -/
def bridgeEvt : CallEventData :=
  { id := "c1", app_id := "n1", timestamp := 1007, event := "bridge",
    data := .bridged { bridged_id := "c2",
                       toEp := some { etype := "user", number := some "200", name := none } } }

/-- A hold event for `c1`. -/
def holdEvt : CallEventData :=
  { id := "c1", app_id := "n1", timestamp := 1009, event := "hold", data := .empty }

/-- The §8 example hangup event for `c1`. -/
def hangupEvt : CallEventData :=
  { id := "c1", app_id := "n1", timestamp := 1010, event := "hangup",
    data := .hangup { cause := "NORMAL_CLEARING", sip := 200 } }

/-- An `update` event for `c1`: `CallActions.Update = 'update'` exists in
the enum but has no case in `Client.handleCallEvents`. -/
def updateEvt : CallEventData :=
  { id := "c1", app_id := "n1", timestamp := 1006, event := "update", data := .empty }

/-- A creation event for a call with a parent leg (`p7`), used to observe
the `parentId → bridgedId` copy on answer. -/
def ringEvtParent : CallEventData :=
  { id := "c9", app_id := "n1", timestamp := 2000, event := "ringing",
    data := .info { sip_id := none, parent_id := "p7", direction := "inbound",
                    destination := "100",
                    callFrom := { etype := "", number := some "556", name := none },
                    toEp := none } }

/-- The §8 example call right after creation. -/
def exampleRinging : Call := mkCall ringEvt

/-- The registry after the §8 creation event. -/
def exampleReg1 : RegState := runCallEvent initReg ringEvt

/-- The §8 example call after its active event. -/
def exampleActive : Call := setActive exampleRinging activeEvt

/-- The §8 example call after hangup. -/
def exampleHungup : Call := setHangup exampleActive hangupEvt

/-- A call in state `hold` (a hold event applied to the answered example
call). -/
def exampleHold : Call := setHold exampleActive holdEvt

/-- The state of a freshly constructed, just-connected `Client`. -/
def initClient : ClientState :=
  { corr := initCorr, reg := initReg, connected := false, log := [] }

/-- An inbound call-event message carrying the unhandled `update` action. -/
def updateMsg : Message :=
  { seq_reply := 0, event := "call", status := "", payload := "", error := "",
    callData := some updateEvt }

/-- An inbound message with an unrecognized top-level event name. -/
def strangeMsg : Message :=
  { seq_reply := 0, event := "mystery", status := "", payload := "", error := "",
    callData := none }

/-- An inbound reply message (status OK) for sequence id 1. -/
def replyMsg : Message :=
  { seq_reply := 1, event := "", status := "OK", payload := "pong", error := "",
    callData := none }

/-- Active events for the parented call `c9`. -/
def activeEvtParent : CallEventData :=
  { id := "c9", app_id := "n1", timestamp := 2005, event := "active", data := .empty }

/-- A second active event for `c9`. -/
def activeEvtParent2 : CallEventData :=
  { id := "c9", app_id := "n1", timestamp := 2009, event := "active", data := .empty }

/-- The parented example call right after creation. -/
def parentRinging : Call := mkCall ringEvtParent

/-- The registry after the §8 creation and active events. -/
def exampleReg2 : RegState := runCallEvent exampleReg1 activeEvt

/-- Dispatch of the non-creation, non-hangup cases of the call-event
switch: the in-place transition each recognized action applies to an
existing call (`active`/`bridge`/`execute`/`dtmf`/`voice`/`silence`/
`hold` branches of `Client.handleCallEvents`); identity on anything
else. -/
def applyInPlace (e : CallEventData) (c : Call) : Call :=
  if e.event = "active" then setActive c e
  else if e.event = "bridge" then setBridged c e
  else if e.event = "execute" then setExecute c (asExecute e.data)
  else if e.event = "dtmf" then addDigit c (asDtmf e.data)
  else if e.event = "voice" then setVoice c
  else if e.event = "silence" then setSilence c
  else if e.event = "hold" then setHold c e
  else c

theorem alookup_aset_self {α β : Type} [DecidableEq α] (k : α) (v : β)
    (l : List (α × β)) : alookup k (aset k v l) = some v := by
  induction l with
  | nil => simp [aset, alookup]
  | cons p t ih =>
      by_cases h : p.1 = k
      · simp [aset, alookup, h]
      · simp [aset, alookup, h, ih]

theorem alookup_aset_ne {α β : Type} [DecidableEq α] {k u : α} (v : β)
    (l : List (α × β)) (h : u ≠ k) : alookup u (aset k v l) = alookup u l := by
  induction l with
  | nil => simp [aset, alookup, h.symm]
  | cons p t ih =>
      by_cases hp : p.1 = k
      · simp [aset, alookup, hp, h.symm, ih]
      · by_cases hu : p.1 = u
        · simp [aset, alookup, hp, hu, h, h.symm]
        · simp [aset, alookup, hp, hu, ih]

theorem alookup_aerase_self {α β : Type} [DecidableEq α] (k : α)
    (l : List (α × β)) : alookup k (aerase k l) = none := by
  induction l with
  | nil => simp [aerase, alookup]
  | cons p t ih =>
      by_cases hp : p.1 = k
      · simp [aerase, alookup, hp, ih]
      · simp [aerase, alookup, hp, ih]

theorem alookup_aerase_ne {α β : Type} [DecidableEq α] {k u : α}
    (l : List (α × β)) (h : u ≠ k) : alookup u (aerase k l) = alookup u l := by
  induction l with
  | nil => simp [aerase, alookup]
  | cons p t ih =>
      by_cases hp : p.1 = k
      · have hpu : ¬ (p.1 = u) := fun he => h (he ▸ hp)
        simp [aerase, alookup, hp, hpu, h, h.symm, ih]
      · by_cases hu : p.1 = u
        · simp [aerase, alookup, hp, hu, h, h.symm]
        · simp [aerase, alookup, hp, hu, ih]

theorem mem_keys_aset {α β : Type} [DecidableEq α] (k x : α) (v : β)
    (l : List (α × β)) :
    x ∈ (aset k v l).map Prod.fst ↔ x = k ∨ x ∈ l.map Prod.fst := by
  induction l with
  | nil => simp [aset]
  | cons p t ih =>
      by_cases hp : p.1 = k
      · simp [aset, hp]
      · simp [aset, hp, ih]
        tauto

theorem mem_keys_aerase {α β : Type} [DecidableEq α] (k x : α)
    (l : List (α × β)) (h : x ∈ (aerase k l).map Prod.fst) :
    x ∈ l.map Prod.fst := by
  induction l with
  | nil => simp [aerase] at h
  | cons p t ih =>
      by_cases hp : p.1 = k
      · rw [aerase, if_pos hp] at h
        exact List.mem_cons_of_mem _ (ih h)
      · rw [aerase, if_neg hp, List.map_cons] at h
        rcases List.mem_cons.mp h with he | hm
        · exact he ▸ List.mem_cons_self _ _
        · exact List.mem_cons_of_mem _ (ih hm)

theorem nodupKeys_aset {α β : Type} [DecidableEq α] (k : α) (v : β)
    (l : List (α × β)) (h : NodupKeys l) : NodupKeys (aset k v l) := by
  induction l with
  | nil => simp [NodupKeys, aset]
  | cons p t ih =>
      rw [NodupKeys, List.map_cons, List.nodup_cons] at h
      obtain ⟨hp, ht⟩ := h
      by_cases hk : p.1 = k
      · subst hk
        show ((aset p.1 v (p :: t)).map Prod.fst).Nodup
        rw [aset, if_pos rfl, List.map_cons, List.nodup_cons]
        exact ⟨hp, ht⟩
      · have ihv := ih ht
        have hnk : p.1 ∉ (aset k v t).map Prod.fst := by
          rw [mem_keys_aset]
          rintro (he | hm)
          · exact hk he
          · exact hp hm
        show ((aset k v (p :: t)).map Prod.fst).Nodup
        rw [aset, if_neg hk, List.map_cons, List.nodup_cons]
        exact ⟨hnk, ihv⟩

theorem nodupKeys_aerase {α β : Type} [DecidableEq α] (k : α)
    (l : List (α × β)) (h : NodupKeys l) : NodupKeys (aerase k l) := by
  induction l with
  | nil => simpa [aerase] using h
  | cons p t ih =>
      rw [NodupKeys, List.map_cons, List.nodup_cons] at h
      obtain ⟨hp, ht⟩ := h
      by_cases hk : p.1 = k
      · show ((aerase k (p :: t)).map Prod.fst).Nodup
        rw [aerase, if_pos hk]
        exact ih ht
      · show ((aerase k (p :: t)).map Prod.fst).Nodup
        rw [aerase, if_neg hk, List.map_cons, List.nodup_cons]
        exact ⟨fun hm => hp (mem_keys_aerase k p.1 t hm), ih ht⟩

theorem complete_reqSeq (st : CorrState) (sid : Nat) (status payload err : String) :
    (complete st sid status payload err).reqSeq = st.reqSeq := by
  unfold complete
  split <;> rfl

theorem issuedIdsFrom_eq (tr : List Step) : ∀ st : CorrState,
    issuedIdsFrom st tr = seqFrom (st.reqSeq + 1) (countIssues tr) := by
  induction tr with
  | nil => intro st; rfl
  | cons s t ih =>
      intro st
      cases s with
      | issue => simp [issuedIdsFrom, countIssues, seqFrom, ih, runStep, request]
      | reply sid status p e =>
          simp [issuedIdsFrom, countIssues, ih, runStep, complete_reqSeq]

theorem le_of_mem_seqFrom (n : Nat) : ∀ s b : Nat, b ∈ seqFrom s n → s ≤ b := by
  induction n with
  | zero => intro s b hb; simp [seqFrom] at hb
  | succ m ih =>
      intro s b hb
      simp only [seqFrom, List.mem_cons] at hb
      rcases hb with h | h
      · omega
      · have := ih (s + 1) b h
        omega

theorem pairwise_seqFrom (n : Nat) : ∀ s : Nat,
    List.Pairwise (· < ·) (seqFrom s n) := by
  induction n with
  | zero => intro s; simp [seqFrom]
  | succ m ih =>
      intro s
      simp only [seqFrom, List.pairwise_cons]
      refine ⟨fun b hb => ?_, ih (s + 1)⟩
      have := le_of_mem_seqFrom m (s + 1) b hb
      omega

theorem corrInv_init : CorrInv initCorr := by
  simp [CorrInv, initCorr]

theorem corrInv_step (st : CorrState) (s : Step) (h : CorrInv st) :
    CorrInv (runStep st s) := by
  obtain ⟨hnd, hbound, hset, hsetnd⟩ := h
  cases s with
  | issue =>
      refine ⟨?_, ?_, ?_, ?_⟩
      · rw [runStep]
        simp only [request, List.nodup_append]
        refine ⟨hnd, List.nodup_singleton _, ?_⟩
        intro a ha hmem
        have := (hbound a ha).2
        simp only [List.mem_singleton] at hmem
        omega
      · intro a ha
        simp only [runStep, request, List.mem_append, List.mem_singleton] at ha
        rcases ha with ha | ha
        · have := hbound a ha
          simp only [runStep, request]
          omega
        · simp only [runStep, request]
          omega
      · intro p hp
        simp only [runStep, request] at hp ⊢
        have := hset p hp
        constructor
        · intro hmem
          rcases List.mem_append.mp hmem with hm | hm
          · exact this.1 hm
          · simp only [List.mem_singleton] at hm
            have h2 := this.2
            omega
        · omega
      · simpa [runStep, request] using hsetnd
  | reply sid status payload err =>
      simp only [runStep, complete]
      by_cases hmem : sid ∈ st.pending
      · simp only [hmem, if_true]
        refine ⟨hnd.erase sid, ?_, ?_, ?_⟩
        · intro a ha
          exact hbound a (List.mem_of_mem_erase ha)
        · intro p hp
          rcases List.mem_append.mp hp with hm | hm
          · have := hset p hm
            exact ⟨fun he => this.1 (List.mem_of_mem_erase he), this.2⟩
          · simp only [List.mem_singleton] at hm
            subst hm
            refine ⟨fun he => ?_, (hbound sid hmem).2⟩
            have := (hnd.mem_erase_iff.mp he).1
            exact this rfl
        · simp only [List.map_append, List.map_cons, List.map_nil]
          rw [List.nodup_append]
          refine ⟨hsetnd, List.nodup_singleton _, ?_⟩
          intro a ha hb
          simp only [List.mem_singleton] at hb
          subst hb
          obtain ⟨p, hp, he⟩ := List.mem_map.mp ha
          exact (hset p hp).1 (he ▸ hmem)
      · simp only [hmem, if_false]
        exact ⟨hnd, hbound, hset, hsetnd⟩

theorem corrInv_foldl (tr : List Step) : ∀ st : CorrState, CorrInv st →
    CorrInv (List.foldl runStep st tr) := by
  induction tr with
  | nil => intro st h; exact h
  | cons s t ih =>
      intro st h
      exact ih (runStep st s) (corrInv_step st s h)

theorem corrInv_runTrace (tr : List Step) : CorrInv (runTrace tr) :=
  corrInv_foldl tr initCorr corrInv_init

/-- C1: over any trace of issued requests and inbound replies, the
requests are assigned the sequence ids 1, 2, 3, … in order of issue
(strictly increasing); each request's future is settled at most once over
the whole trace; a reply matching a pending id removes the entry and
resolves the future with the payload on status OK and rejects it with
the error on status FAIL; a reply whose id has no pending entry (never
issued or already completed) leaves the correlator completely unchanged
and raises nothing (the handler is a total function). -/
theorem C1_request_correlator (tr : List Step) :
    issuedIds tr = seqFrom 1 (countIssues tr)
    ∧ List.Pairwise (· < ·) (issuedIds tr)
    ∧ (∀ sid : Nat, ((runTrace tr).settled.map Prod.fst).count sid ≤ 1)
    ∧ (∀ sid : Nat, ∀ status payload err : String,
        sid ∉ (runTrace tr).pending →
        complete (runTrace tr) sid status payload err = runTrace tr)
    ∧ (∀ sid : Nat, ∀ payload err : String,
        sid ∈ (runTrace tr).pending →
        (complete (runTrace tr) sid "OK" payload err).settled
            = (runTrace tr).settled ++ [(sid, Settlement.resolved payload)]
        ∧ (complete (runTrace tr) sid "FAIL" payload err).settled
            = (runTrace tr).settled ++ [(sid, Settlement.rejected err)]
        ∧ sid ∉ (complete (runTrace tr) sid "OK" payload err).pending) := by
  obtain ⟨hnd, hbound, hset, hsetnd⟩ := corrInv_runTrace tr
  refine ⟨?_, ?_, ?_, ?_, ?_⟩
  · simpa [issuedIds, initCorr] using issuedIdsFrom_eq tr initCorr
  · have h := issuedIdsFrom_eq tr initCorr
    simp only [issuedIds, initCorr] at h ⊢
    rw [h]
    exact pairwise_seqFrom (countIssues tr) 1
  · intro sid
    exact List.nodup_iff_count_le_one.mp hsetnd sid
  · intro sid status payload err hmem
    simp [complete, hmem]
  · intro sid payload err hmem
    refine ⟨?_, ?_, ?_⟩
    · simp [complete, hmem]
    · simp [complete, hmem]
    · simp only [complete, hmem, if_true]
      intro hin
      exact (hnd.mem_erase_iff.mp hin).1 rfl

/-- Witness for C1 at the trace issue; issue; the ids handed out are 1
and 2, the stale reply 7 is dropped without effect, and completing id 1
with OK resolves it with the payload. -/
theorem C1_request_correlator_witness :
    issuedIds [Step.issue, Step.issue] = [1, 2]
    ∧ complete (runTrace [Step.issue, Step.issue]) 7 "OK" "late" "e"
        = runTrace [Step.issue, Step.issue]
    ∧ (complete (runTrace [Step.issue, Step.issue]) 1 "OK" "pong" "e").settled
        = [(1, Settlement.resolved "pong")] := by
  refine ⟨?_, ?_, ?_⟩
  · have h := (C1_request_correlator [Step.issue, Step.issue]).1
    simpa [seqFrom, countIssues] using h
  · exact (C1_request_correlator [Step.issue, Step.issue]).2.2.2.1 7 "OK" "late" "e"
      (by decide)
  · have h := ((C1_request_correlator [Step.issue, Step.issue]).2.2.2.2 1 "pong" "e"
      (by decide)).1
    rw [h]
    rfl

theorem updateExisting_found (st : RegState) (id : String) (f : Call → Call)
    (obj : Nat) (c : Call) (hs : alookup id st.callStore = some obj)
    (hh : alookup obj st.heap = some c) :
    updateExisting st id f = ({ st with heap := aset obj (f c) st.heap }, some obj) := by
  simp [updateExisting, hs, hh]

theorem updateExisting_preserves (st : RegState) (id : String) (f : Call → Call) :
    (updateExisting st id f).1.callStore = st.callStore
    ∧ (updateExisting st id f).1.nextObj = st.nextObj := by
  rcases h1 : alookup id st.callStore with _ | obj
  · simp [updateExisting, h1]
  · rcases h2 : alookup obj st.heap with _ | c
    · simp [updateExisting, h1, h2]
    · simp [updateExisting, h1, h2]

theorem mkCall_id (e : CallEventData) : (mkCall e).id = e.id := rfl

/-- C2 fails on `Client.handleCallEvents` (src/src/socket/client.ts): a
second ringing event for an id that already has a registry entry does
not mutate the existing `Call` — the `Ringing` case unconditionally runs
`new Call(this, event)` and `callStore.set`, so the registry entry is
replaced by a fresh object (heap location 0 becomes heap location 1) and
a holder of the old reference no longer sees the registry's entry. -/
theorem C2_counterexample :
    callObjById exampleReg1 "c1" = some 0
    ∧ callObjById (runCallEvent exampleReg1 ringEvt2) "c1" = some 1
    ∧ callById (runCallEvent exampleReg1 ringEvt2) "c1" ≠ callById exampleReg1 "c1" := by
  refine ⟨by decide, by decide, by decide⟩

theorem updateExisting_run (st : RegState) (e : CallEventData)
    (f : Call → Call)
    (hrun : runCallEvent st e = (updateExisting st e.id f).1) :
    (runCallEvent st e).callStore = st.callStore
    ∧ (runCallEvent st e).nextObj = st.nextObj
    ∧ (alookup e.id st.callStore = none → runCallEvent st e = st)
    ∧ (∀ (obj : Nat) (c : Call),
        alookup e.id st.callStore = some obj →
        alookup obj st.heap = some c →
        runCallEvent st e = { st with heap := aset obj (f c) st.heap }
        ∧ alookup obj (runCallEvent st e).heap = some (f c)
        ∧ (∀ o : Nat, o ≠ obj →
            alookup o (runCallEvent st e).heap = alookup o st.heap)) := by
  refine ⟨?_, ?_, ?_, ?_⟩
  · rw [hrun]
    exact (updateExisting_preserves st e.id f).1
  · rw [hrun]
    exact (updateExisting_preserves st e.id f).2
  · intro hnone
    rw [hrun]
    simp [updateExisting, hnone]
  · intro obj c hs hh
    have hfound := updateExisting_found st e.id f obj c hs hh
    rw [hrun, hfound]
    refine ⟨rfl, ?_, ?_⟩
    · simpa using alookup_aset_self obj (f c) st.heap
    · intro o ho
      simpa using alookup_aset_ne (f c) st.heap ho

/-- C2 amended: a ringing event always constructs a fresh `Call` and
inserts it at the event id — creating the entry when the id is unknown,
and replacing the existing entry (object identity not preserved for
holders) when it is known. Each of the seven non-ringing, non-hangup
recognized events mutates the existing `Call` in place: the id-to-object
mapping and the allocator are untouched, the heap entry at the existing
location is rewritten with the event's transition applied while every
other location is unchanged, and an unknown id makes the event a no-op.
A hangup event likewise rewrites the existing object in place
(`setHangup`) but then removes the id's registry entry. Key-distinctness
of the registry is preserved by every event, so it never holds two
entries for the same id. -/
theorem C2_registry_amended (st : RegState) (e : CallEventData) :
    (e.event = "ringing" →
        runCallEvent st e =
          { nextObj := st.nextObj + 1
            heap := aset st.nextObj (mkCall e) st.heap
            callStore := aset e.id st.nextObj st.callStore }
        ∧ callById (runCallEvent st e) e.id = some (mkCall e))
    ∧ (e.event ∈ ["active", "bridge", "execute", "dtmf", "voice", "silence", "hold"] →
        (runCallEvent st e).callStore = st.callStore
        ∧ (runCallEvent st e).nextObj = st.nextObj
        ∧ (alookup e.id st.callStore = none → runCallEvent st e = st)
        ∧ (∀ (obj : Nat) (c : Call),
            alookup e.id st.callStore = some obj →
            alookup obj st.heap = some c →
            runCallEvent st e = { st with heap := aset obj (applyInPlace e c) st.heap }
            ∧ alookup obj (runCallEvent st e).heap = some (applyInPlace e c)
            ∧ (∀ o : Nat, o ≠ obj →
                alookup o (runCallEvent st e).heap = alookup o st.heap)))
    ∧ (e.event = "hangup" →
        ∀ (obj : Nat) (c : Call),
          alookup e.id st.callStore = some obj →
          alookup obj st.heap = some c →
          runCallEvent st e =
            { st with heap := aset obj (setHangup c e) st.heap
                      callStore := aerase e.id st.callStore }
          ∧ alookup obj (runCallEvent st e).heap = some (setHangup c e))
    ∧ (NodupKeys st.callStore → NodupKeys (runCallEvent st e).callStore) := by
  refine ⟨?_, ?_, ?_, ?_⟩
  · intro hev
    have hrun : runCallEvent st e =
        { nextObj := st.nextObj + 1
          heap := aset st.nextObj (mkCall e) st.heap
          callStore := aset e.id st.nextObj st.callStore } := by
      simp [runCallEvent, handleCallEvents, hev, insertRinging, mkCall_id]
    refine ⟨hrun, ?_⟩
    rw [hrun]
    simp [callById, alookup_aset_self]
  · intro hmem
    simp only [List.mem_cons, List.not_mem_nil, or_false] at hmem
    rcases hmem with h | h | h | h | h | h | h
    · have hfun : applyInPlace e = fun c => setActive c e := by
        funext c
        simp [applyInPlace, h]
      have hrun : runCallEvent st e = (updateExisting st e.id (applyInPlace e)).1 := by
        rw [hfun]
        simp [runCallEvent, handleCallEvents, h]
      exact updateExisting_run st e (applyInPlace e) hrun
    · have hfun : applyInPlace e = fun c => setBridged c e := by
        funext c
        simp [applyInPlace, h]
      have hrun : runCallEvent st e = (updateExisting st e.id (applyInPlace e)).1 := by
        rw [hfun]
        simp [runCallEvent, handleCallEvents, h]
      exact updateExisting_run st e (applyInPlace e) hrun
    · have hfun : applyInPlace e = fun c => setExecute c (asExecute e.data) := by
        funext c
        simp [applyInPlace, h]
      have hrun : runCallEvent st e = (updateExisting st e.id (applyInPlace e)).1 := by
        rw [hfun]
        simp [runCallEvent, handleCallEvents, h]
      exact updateExisting_run st e (applyInPlace e) hrun
    · have hfun : applyInPlace e = fun c => addDigit c (asDtmf e.data) := by
        funext c
        simp [applyInPlace, h]
      have hrun : runCallEvent st e = (updateExisting st e.id (applyInPlace e)).1 := by
        rw [hfun]
        simp [runCallEvent, handleCallEvents, h]
      exact updateExisting_run st e (applyInPlace e) hrun
    · have hfun : applyInPlace e = fun c => setVoice c := by
        funext c
        simp [applyInPlace, h]
      have hrun : runCallEvent st e = (updateExisting st e.id (applyInPlace e)).1 := by
        rw [hfun]
        simp [runCallEvent, handleCallEvents, h]
      exact updateExisting_run st e (applyInPlace e) hrun
    · have hfun : applyInPlace e = fun c => setSilence c := by
        funext c
        simp [applyInPlace, h]
      have hrun : runCallEvent st e = (updateExisting st e.id (applyInPlace e)).1 := by
        rw [hfun]
        simp [runCallEvent, handleCallEvents, h]
      exact updateExisting_run st e (applyInPlace e) hrun
    · have hfun : applyInPlace e = fun c => setHold c e := by
        funext c
        simp [applyInPlace, h]
      have hrun : runCallEvent st e = (updateExisting st e.id (applyInPlace e)).1 := by
        rw [hfun]
        simp [runCallEvent, handleCallEvents, h]
      exact updateExisting_run st e (applyInPlace e) hrun
  · intro hev obj c hs hh
    have hrm : removeOnHangup st e =
        ({ st with heap := aset obj (setHangup c e) st.heap
                   callStore := aerase e.id st.callStore }, some obj) := by
      simp [removeOnHangup, hs, hh]
    have hrun : runCallEvent st e =
        { st with heap := aset obj (setHangup c e) st.heap
                  callStore := aerase e.id st.callStore } := by
      simp [runCallEvent, handleCallEvents, hev, hrm]
    refine ⟨hrun, ?_⟩
    rw [hrun]
    simpa using alookup_aset_self obj (setHangup c e) st.heap
  · intro hnd
    unfold runCallEvent handleCallEvents
    split_ifs with h1 h2 h3 h4 h5 h6 h7 h8 h9
    · simpa [insertRinging] using nodupKeys_aset _ _ _ hnd
    · simpa using (updateExisting_preserves st e.id _).1 ▸ hnd
    · simpa using (updateExisting_preserves st e.id _).1 ▸ hnd
    · simpa using (updateExisting_preserves st e.id _).1 ▸ hnd
    · simpa using (updateExisting_preserves st e.id _).1 ▸ hnd
    · simpa using (updateExisting_preserves st e.id _).1 ▸ hnd
    · simpa using (updateExisting_preserves st e.id _).1 ▸ hnd
    · simpa using (updateExisting_preserves st e.id _).1 ▸ hnd
    · rcases hs : alookup e.id st.callStore with _ | obj
      · simp [removeOnHangup, hs, hnd]
      · rcases hh : alookup obj st.heap with _ | c
        · simp [removeOnHangup, hs, hh, hnd]
        · simpa [removeOnHangup, hs, hh] using nodupKeys_aerase _ _ hnd
    · simpa using hnd

/-- Witness for the amended C2: the §8 ringing event on the empty
registry creates exactly one entry for `c1`; the subsequent active event
leaves the mapping and the allocator untouched and rewrites heap
location 0 in place with the active transition; the hangup event
rewrites location 0 in place and erases the `c1` entry. -/
theorem C2_registry_amended_witness :
    runCallEvent initReg ringEvt =
      { nextObj := 1, heap := aset 0 (mkCall ringEvt) [], callStore := aset "c1" 0 [] }
    ∧ callById (runCallEvent initReg ringEvt) "c1" = some (mkCall ringEvt)
    ∧ (runCallEvent exampleReg1 activeEvt).callStore = exampleReg1.callStore
    ∧ (runCallEvent exampleReg1 activeEvt).nextObj = exampleReg1.nextObj
    ∧ runCallEvent exampleReg1 activeEvt
        = { exampleReg1 with
            heap := aset 0 (applyInPlace activeEvt exampleRinging) exampleReg1.heap }
    ∧ runCallEvent exampleReg2 hangupEvt
        = { exampleReg2 with
            heap := aset 0 (setHangup exampleActive hangupEvt) exampleReg2.heap
            callStore := aerase "c1" exampleReg2.callStore } := by
  refine ⟨?_, ?_, ?_, ?_, ?_, ?_⟩
  · exact ((C2_registry_amended initReg ringEvt).1 (by decide)).1
  · exact ((C2_registry_amended initReg ringEvt).1 (by decide)).2
  · exact ((C2_registry_amended exampleReg1 activeEvt).2.1 (by decide)).1
  · exact ((C2_registry_amended exampleReg1 activeEvt).2.1 (by decide)).2.1
  · exact (((C2_registry_amended exampleReg1 activeEvt).2.1 (by decide)).2.2.2
      0 exampleRinging (by decide) (by decide)).1
  · exact ((C2_registry_amended exampleReg2 hangupEvt).2.2.1 (by decide)
      0 exampleActive (by decide) (by decide)).1

/-- C3: processing a hangup event for a registered call applies
`setHangup` — recording the event timestamp, the cause and the protocol
status code, forcing the voice-activity flag off, clearing the remote
media handle and moving the state to `hangup` — then removes the
registry entry (the emitted snapshot, at the returned heap location,
already reflects the terminal fields). Afterwards the registry lookup
for the id finds nothing while the heap object (any previously obtained
reference) still reports the terminal fields, and a repeated hangup
event for the same id is a complete no-op, so the terminal fields are
written exactly once. -/
theorem C3_hangup_terminal (st : RegState) (e : CallEventData) (obj : Nat)
    (c : Call) (hp : CallHangupPayload) (hev : e.event = "hangup")
    (hdata : e.data = EventData.hangup hp)
    (hs : alookup e.id st.callStore = some obj)
    (hh : alookup obj st.heap = some c) :
    handleCallEvents st e = Except.ok (runCallEvent st e, some obj)
    ∧ callById (runCallEvent st e) e.id = none
    ∧ alookup obj (runCallEvent st e).heap = some (setHangup c e)
    ∧ (setHangup c e).hangupAt = e.timestamp
    ∧ (setHangup c e).hangupCause = hp.cause
    ∧ (setHangup c e).hangupSipCode = hp.sip
    ∧ (setHangup c e).voice = false
    ∧ (setHangup c e).peerStreams = none
    ∧ (setHangup c e).state = "hangup"
    ∧ (∀ e2 : CallEventData, e2.event = "hangup" → e2.id = e.id →
        runCallEvent (runCallEvent st e) e2 = runCallEvent st e) := by
  have hrm : removeOnHangup st e =
      ({ st with heap := aset obj (setHangup c e) st.heap
                 callStore := aerase e.id st.callStore }, some obj) := by
    simp [removeOnHangup, hs, hh]
  have hhc : handleCallEvents st e =
      Except.ok ({ st with heap := aset obj (setHangup c e) st.heap
                           callStore := aerase e.id st.callStore }, some obj) := by
    simp [handleCallEvents, hev, hrm]
  have hrun : runCallEvent st e =
      { st with heap := aset obj (setHangup c e) st.heap
                callStore := aerase e.id st.callStore } := by
    simp [runCallEvent, hhc]
  refine ⟨by rw [hhc, hrun], ?_, ?_, ?_, ?_, ?_, ?_, ?_, ?_, ?_⟩
  · rw [hrun]
    simp [callById, alookup_aerase_self]
  · rw [hrun]
    simpa using alookup_aset_self obj (setHangup c e) st.heap
  · simp [setHangup, setState]
  · simp [setHangup, setState, hdata, asHangup]
  · simp [setHangup, setState, hdata, asHangup]
  · simp [setHangup, setState]
  · simp [setHangup, setState]
  · simp [setHangup, setState, hev]
  · intro e2 hev2 hid2
    have hnone : alookup e2.id (aerase e.id st.callStore) = none := by
      rw [hid2]
      exact alookup_aerase_self e.id st.callStore
    rw [hrun]
    simp [runCallEvent, handleCallEvents, hev2, removeOnHangup, hnone]

/-- Witness for C3 on the §8 example: after the hangup event for `c1`,
the registry no longer finds `c1`, while the previously created object
(heap location 0) reports the terminal fields. -/
theorem C3_hangup_terminal_witness :
    callById (runCallEvent exampleReg2 hangupEvt) "c1" = none
    ∧ alookup 0 (runCallEvent exampleReg2 hangupEvt).heap
        = some (setHangup exampleActive hangupEvt)
    ∧ (setHangup exampleActive hangupEvt).hangupAt = 1010
    ∧ (setHangup exampleActive hangupEvt).hangupCause = "NORMAL_CLEARING"
    ∧ (setHangup exampleActive hangupEvt).hangupSipCode = 200
    ∧ (setHangup exampleActive hangupEvt).voice = false
    ∧ (setHangup exampleActive hangupEvt).peerStreams = none := by
  have h := C3_hangup_terminal exampleReg2 hangupEvt 0 exampleActive
      { cause := "NORMAL_CLEARING", sip := 200 }
      (by decide) (by decide) (by decide) (by decide)
  exact ⟨h.2.1, h.2.2.1, h.2.2.2.1, h.2.2.2.2.1, h.2.2.2.2.2.1,
    h.2.2.2.2.2.2.1, h.2.2.2.2.2.2.2.1⟩

theorem foldl_setActive_frozen (es : List CallEventData) : ∀ a : Call,
    a.answeredAt ≠ 0 →
    (List.foldl setActive a es).answeredAt = a.answeredAt
    ∧ (List.foldl setActive a es).bridgedAt = a.bridgedAt
    ∧ (List.foldl setActive a es).bridgedId = a.bridgedId := by
  induction es with
  | nil => intro a h; exact ⟨rfl, rfl, rfl⟩
  | cons e t ih =>
      intro a h
      have h1 : (setActive a e).answeredAt = a.answeredAt := by
        simp [setActive, setState, h]
      have h2 : (setActive a e).bridgedAt = a.bridgedAt := by
        simp [setActive, setState, h]
      have h3 : (setActive a e).bridgedId = a.bridgedId := by
        simp [setActive, setState, h]
      have hrest := ih (setActive a e) (by rw [h1]; exact h)
      rw [List.foldl_cons]
      exact ⟨by rw [hrest.1, h1], by rw [hrest.2.1, h2], by rw [hrest.2.2, h3]⟩

/-- C4: across any nonempty run of active events (the first of which
carries a nonzero timestamp, `0` being the source's "unset" sentinel),
`answeredAt` is assigned the first event's timestamp and never changed
again; on that first event an inbound call also gets `bridgedAt` set to
the same timestamp and, when a parent id exists, `bridgedId` copied from
`parentId`; a non-inbound call keeps its `bridgedAt` untouched. -/
theorem C4_answeredAt_once (c : Call) (e : CallEventData)
    (es : List CallEventData) (h0 : c.answeredAt = 0) (ht : e.timestamp ≠ 0) :
    (List.foldl setActive c (e :: es)).answeredAt = e.timestamp
    ∧ (c.direction = "inbound" →
        (List.foldl setActive c (e :: es)).bridgedAt = e.timestamp
        ∧ (c.parentId ≠ "" →
            (List.foldl setActive c (e :: es)).bridgedId = c.parentId))
    ∧ (c.direction ≠ "inbound" →
        (List.foldl setActive c (e :: es)).bridgedAt = c.bridgedAt) := by
  have hA : (setActive c e).answeredAt = e.timestamp := by
    simp [setActive, setState, h0]
  have hfrozen := foldl_setActive_frozen es (setActive c e) (by rw [hA]; exact ht)
  rw [List.foldl_cons]
  refine ⟨by rw [hfrozen.1, hA], ?_, ?_⟩
  · intro hdir
    constructor
    · have hB : (setActive c e).bridgedAt = e.timestamp := by
        simp [setActive, setState, h0, hdir]
        split_ifs <;> rfl
      rw [hfrozen.2.1, hB]
    · intro hpid
      have hI : (setActive c e).bridgedId = c.parentId := by
        simp [setActive, setState, h0, hdir, hpid]
      rw [hfrozen.2.2, hI]
  · intro hdir
    have hB : (setActive c e).bridgedAt = c.bridgedAt := by
      simp [setActive, setState, h0, hdir]
    rw [hfrozen.2.1, hB]

/-- Witness for C4: the inbound call with parent `p7` answered at 2005
keeps `answeredAt = 2005` across a second active event at 2009, gets
`bridgedAt = 2005` and `bridgedId = "p7"`. -/
theorem C4_answeredAt_once_witness :
    parentRinging.answeredAt = 0
    ∧ (List.foldl setActive parentRinging [activeEvtParent, activeEvtParent2]).answeredAt = 2005
    ∧ (List.foldl setActive parentRinging [activeEvtParent, activeEvtParent2]).bridgedAt = 2005
    ∧ (List.foldl setActive parentRinging [activeEvtParent, activeEvtParent2]).bridgedId = "p7" := by
  have h := C4_answeredAt_once parentRinging activeEvtParent [activeEvtParent2]
      (by decide) (by decide)
  exact ⟨by decide, h.1, (h.2.1 (by decide)).1, (h.2.1 (by decide)).2 (by decide)⟩

/-- C5 fails: for the freshly created §8 call (state `ringing`, no
hangup) the may-hold predicate is false, yet `Call.hold` does not reject
locally — its only gate is `state === 'hold'` — and it sends the
`call_hold` request. -/
theorem C5_counterexample :
    allowHold exampleRinging = false
    ∧ hold exampleRinging = Except.ok ("call_hold", "c1", "n1") := by
  refine ⟨by decide, rfl⟩

/-- C5 amended: `hold()` rejects locally (no request) exactly when the
state is already `hold`, and otherwise sends exactly one `call_hold`
request — even when the may-hold predicate is false, e.g. on a ringing
call; `unhold()` rejects locally exactly when the state is not `hold`
and otherwise sends exactly one `call_unhold` request. The positive half
of the claim does hold: whenever may-hold (resp. may-unhold) is true,
exactly one request is sent. -/
theorem C5_hold_gate_amended (c : Call) :
    (c.state = "hold" → hold c = Except.error "Call is hold")
    ∧ (c.state ≠ "hold" → hold c = Except.ok ("call_hold", c.id, c.appId))
    ∧ (c.state ≠ "hold" → unHold c = Except.error "Call is active")
    ∧ (c.state = "hold" → unHold c = Except.ok ("call_unhold", c.id, c.appId))
    ∧ (allowHold c = true → hold c = Except.ok ("call_hold", c.id, c.appId))
    ∧ (allowUnHold c = true → unHold c = Except.ok ("call_unhold", c.id, c.appId)) := by
  refine ⟨?_, ?_, ?_, ?_, ?_, ?_⟩
  · intro h
    simp [hold, h]
  · intro h
    simp [hold, h]
  · intro h
    simp [unHold, h]
  · intro h
    simp [unHold, h]
  · intro h
    simp only [allowHold, Bool.and_eq_true, Bool.or_eq_true, beq_iff_eq] at h
    rcases h.2 with h2 | h2 <;> simp [hold, h2]
  · intro h
    simp only [allowUnHold, Bool.and_eq_true, beq_iff_eq] at h
    simp [unHold, h.2]

/-- Witness for the amended C5: a call on hold rejects `hold()` locally
and `unhold()` sends its one request; the answered (active) example call
sends its one `call_hold` request. -/
theorem C5_hold_gate_amended_witness :
    hold exampleHold = Except.error "Call is hold"
    ∧ unHold exampleHold = Except.ok ("call_unhold", "c1", "n1")
    ∧ hold exampleActive = Except.ok ("call_hold", "c1", "n1") := by
  refine ⟨(C5_hold_gate_amended exampleHold).1 (by decide), ?_, ?_⟩
  · exact (C5_hold_gate_amended exampleHold).2.2.2.1 (by decide)
  · exact (C5_hold_gate_amended exampleActive).2.1 (by decide)

/-- C6 fails on the state field: `Call.setBridged` records the bridge
data but never calls `setState`, so processing the bridge event for the
active §8 call leaves the externally observed state `"active"`, not
`"bridge"`. -/
theorem C6_counterexample :
    (setBridged exampleActive bridgeEvt).state = "active"
    ∧ (setBridged exampleActive bridgeEvt).state ≠ "bridge"
    ∧ callById (runCallEvent exampleReg2 bridgeEvt) "c1"
        = some (setBridged exampleActive bridgeEvt) := by
  refine ⟨by decide, by decide, by decide⟩

/-- C6 amended: applying a bridge event to a registered call mutates it
in place via `setBridged`: `bridgedAt` is set to the event timestamp
when unset and kept otherwise, the counterpart id is recorded in
`bridgedId`, a provided destination endpoint is recorded in `to`; the
externally observed state is left unchanged (in particular it stays
`"active"`, it does not become `"bridge"`), and because neither the
state nor the hangup time changes, the may-hold predicate — and with it
the availability of hold and hangup — is exactly what it was before. -/
theorem C6_bridge_amended (st : RegState) (e : CallEventData) (obj : Nat)
    (c : Call) (bp : CallBridgedPayload) (hev : e.event = "bridge")
    (hdata : e.data = EventData.bridged bp)
    (hs : alookup e.id st.callStore = some obj)
    (hh : alookup obj st.heap = some c) :
    runCallEvent st e = { st with heap := aset obj (setBridged c e) st.heap }
    ∧ alookup e.id (runCallEvent st e).callStore = some obj
    ∧ alookup obj (runCallEvent st e).heap = some (setBridged c e)
    ∧ (setBridged c e).state = c.state
    ∧ (setBridged c e).hangupAt = c.hangupAt
    ∧ (setBridged c e).bridgedId = bp.bridged_id
    ∧ (c.bridgedAt = 0 → (setBridged c e).bridgedAt = e.timestamp)
    ∧ (c.bridgedAt ≠ 0 → (setBridged c e).bridgedAt = c.bridgedAt)
    ∧ (∀ t : CallEndpoint, bp.toEp = some t → (setBridged c e).toEp = some t)
    ∧ allowHold (setBridged c e) = allowHold c
    ∧ allowHangup (setBridged c e) = allowHangup c := by
  have hupd := updateExisting_found st e.id (fun c => setBridged c e) obj c hs hh
  have hrun : runCallEvent st e = { st with heap := aset obj (setBridged c e) st.heap } := by
    simp [runCallEvent, handleCallEvents, hev, hupd]
  have hstate : (setBridged c e).state = c.state := by
    rcases hbp : bp.toEp with _ | t <;>
      simp [setBridged, hdata, asBridged, hbp] <;> split_ifs <;> rfl
  have hhang : (setBridged c e).hangupAt = c.hangupAt := by
    rcases hbp : bp.toEp with _ | t <;>
      simp [setBridged, hdata, asBridged, hbp] <;> split_ifs <;> rfl
  refine ⟨hrun, ?_, ?_, hstate, hhang, ?_, ?_, ?_, ?_, ?_, ?_⟩
  · rw [hrun]
    simpa using hs
  · rw [hrun]
    simpa using alookup_aset_self obj (setBridged c e) st.heap
  · rcases hbp : bp.toEp with _ | t <;>
      simp [setBridged, hdata, asBridged, hbp]
  · intro h0
    rcases hbp : bp.toEp with _ | t <;>
      simp [setBridged, hdata, asBridged, hbp, h0]
  · intro h0
    rcases hbp : bp.toEp with _ | t <;>
      simp [setBridged, hdata, asBridged, hbp, h0]
  · intro t ht
    simp [setBridged, hdata, asBridged, ht]
  · simp [allowHold, hstate, hhang]
  · simp [allowHangup, hhang]

/-- Witness for the amended C6 on the §8 example: after the bridge event
the registry still maps `c1` to the same object, `bridgedAt` keeps the
answer-time value 1005 (set at the active event), `bridgedId` is the
counterpart `c2`, the provided destination endpoint is recorded, and
may-hold is still true. -/
theorem C6_bridge_amended_witness :
    alookup "c1" (runCallEvent exampleReg2 bridgeEvt).callStore = some 0
    ∧ (setBridged exampleActive bridgeEvt).bridgedId = "c2"
    ∧ (setBridged exampleActive bridgeEvt).bridgedAt = 1005
    ∧ (setBridged exampleActive bridgeEvt).toEp
        = some { etype := "user", number := some "200", name := none }
    ∧ allowHold (setBridged exampleActive bridgeEvt) = allowHold exampleActive := by
  have h := C6_bridge_amended exampleReg2 bridgeEvt 0 exampleActive
      { bridged_id := "c2",
        toEp := some { etype := "user", number := some "200", name := none } }
      (by decide) (by decide) (by decide) (by decide)
  refine ⟨h.2.1, h.2.2.2.2.2.1, ?_, ?_, h.2.2.2.2.2.2.2.2.2.1⟩
  · exact h.2.2.2.2.2.2.2.1 (by decide)
  · exact h.2.2.2.2.2.2.2.2.1 _ (by decide)

/-- C7 states the intended contract, but the shipped `Client.unSubscribe`
is inert: it only issues the `un_subscribe_<action>` request, the three
handler-removal statements in its body are commented out, so the
subscriber table — and with it every future publication — is exactly as
before the call: a subscribed handler is still invoked after
unsubscribing it. -/
theorem C7_unsubscribe_inert :
    (∀ (hs : List (String × Nat)) (action : String) (hd : Nat),
        (unSubscribe hs action hd).1 = hs)
    ∧ (unSubscribe (onChannel [] "call" 7) "call" 7).1 = onChannel [] "call" 7
    ∧ emit (unSubscribe (onChannel [] "call" 7) "call" 7).1 "call" = [7]
    ∧ (unSubscribe (onChannel [] "call" 7) "call" 7).2 = "un_subscribe_call" := by
  exact ⟨fun hs a hd => rfl, rfl, by decide, by decide⟩

theorem handleCallEvents_unhandled (st : RegState) (e : CallEventData)
    (h : e.event ∉ handledActions) :
    handleCallEvents st e = Except.error "Unhandled action" := by
  simp only [handledActions, List.mem_cons, List.not_mem_nil, or_false,
    not_or] at h
  obtain ⟨h1, h2, h3, h4, h5, h6, h7, h8, h9⟩ := h
  simp [handleCallEvents, h1, h2, h3, h4, h5, h6, h7, h8, h9]

theorem handleCallEvents_handled_ok (st : RegState) (e : CallEventData)
    (h : e.event ∈ handledActions) :
    exceptOk (handleCallEvents st e) = true := by
  simp only [handledActions, List.mem_cons, List.not_mem_nil, or_false] at h
  rcases h with h | h | h | h | h | h | h | h | h <;>
    simp [handleCallEvents, h, exceptOk]

/-- C8 fails: routing is not exception-free. A call event whose action
has no case in `Client.handleCallEvents` — `update` is in the
`CallActions` enum but absent from the switch — hits `throw new
Error('Unhandled action')`, which propagates out of `onMessage` instead
of being logged. -/
theorem C8_counterexample :
    onMessage initClient updateMsg = Except.error "Unhandled action"
    ∧ exceptOk (onMessage initClient updateMsg) = false := by
  exact ⟨rfl, rfl⟩

/-- C8 amended: every inbound message is classified exactly once — a
positive `seq_reply` is handled entirely by the request correlator, an
unrecognized top-level event name is only logged (`log.error`), never
thrown, and every non-call event is processed without an exception; but
a call event whose action has no case in the call-event switch raises
`Unhandled action` (a call event with a recognized action never
throws). -/
theorem C8_routing_amended (st : ClientState) (m : Message) :
    (0 < m.seq_reply →
        onMessage st m = Except.ok
          { st with corr := complete st.corr m.seq_reply m.status m.payload m.error })
    ∧ (m.seq_reply = 0 →
        m.event ∉ ["hello", "call", "user_state", "sip", "agent_status"] →
        onMessage st m = Except.ok
          { st with log := st.log ++ ["event " ++ m.event ++ " not handler"] })
    ∧ (m.seq_reply = 0 → m.event = "call" →
        (m.callData.getD emptyCallEvent).event ∉ handledActions →
        onMessage st m = Except.error "Unhandled action")
    ∧ (m.seq_reply = 0 → m.event = "call" →
        (m.callData.getD emptyCallEvent).event ∈ handledActions →
        exceptOk (onMessage st m) = true)
    ∧ (m.event ≠ "call" → exceptOk (onMessage st m) = true) := by
  refine ⟨?_, ?_, ?_, ?_, ?_⟩
  · intro h
    simp [onMessage, h]
  · intro h0 hmem
    simp only [List.mem_cons, List.not_mem_nil, or_false, not_or] at hmem
    obtain ⟨h1, h2, h3, h4, h5⟩ := hmem
    simp [onMessage, h0, h1, h2, h3, h4, h5]
  · intro h0 hev hact
    have herr := handleCallEvents_unhandled st.reg (m.callData.getD emptyCallEvent) hact
    simp [onMessage, h0, hev, herr]
  · intro h0 hev hact
    have hok := handleCallEvents_handled_ok st.reg (m.callData.getD emptyCallEvent) hact
    rcases hres : handleCallEvents st.reg (m.callData.getD emptyCallEvent) with msg | p
    · rw [hres] at hok
      simp [exceptOk] at hok
    · rcases p with ⟨reg1, emitted⟩
      simp [onMessage, h0, hev, hres, exceptOk]
  · intro hne
    by_cases hseq : 0 < m.seq_reply
    · simp [onMessage, hseq, exceptOk]
    · by_cases h1 : m.event = "hello"
      · simp [onMessage, hseq, h1, exceptOk]
      · by_cases h3 : m.event = "user_state"
        · simp [onMessage, hseq, h1, hne, h3, exceptOk]
        · by_cases h4 : m.event = "sip"
          · simp [onMessage, hseq, h1, hne, h3, h4, exceptOk]
          · by_cases h5 : m.event = "agent_status"
            · simp [onMessage, hseq, h1, hne, h3, h4, h5, exceptOk]
            · simp [onMessage, hseq, h1, hne, h3, h4, h5, exceptOk]

/-- Witness for the amended C8: the fresh client logs the unknown event
name `mystery` without throwing, and routes a reply for sequence id 1
to the correlator. -/
theorem C8_routing_amended_witness :
    onMessage initClient strangeMsg = Except.ok
      { initClient with log := ["event mystery not handler"] }
    ∧ onMessage initClient replyMsg = Except.ok
      { initClient with corr := complete initClient.corr 1 "OK" "pong" "" }
    ∧ exceptOk (onMessage initClient updateMsg) = false := by
  refine ⟨?_, ?_, rfl⟩
  · have h := (C8_routing_amended initClient strangeMsg).2.1 (by decide) (by decide)
    rw [h]
    rfl
  · have h := (C8_routing_amended initClient replyMsg).1 (by decide)
    rw [h]
    rfl

/-- C9 fails on the §8 example's arithmetic: timestamps are epoch
milliseconds, so the example call created at 1000 and hung up at 1010
lasted 10 ms, and `Math.round((1010 - 1000) / 1000)` is 0, not the 5 the
spec's example states. -/
theorem C9_counterexample :
    exampleHungup.createdAt = 1000
    ∧ exampleHungup.hangupAt = 1010
    ∧ duration exampleHungup 99999 = 0
    ∧ duration exampleHungup 99999 ≠ 5 := by
  refine ⟨by decide, by decide, by decide, by decide⟩

/-- C9 amended: duration is answer-independent — it never reads
`answeredAt`: while `hangupAt` is 0 it is `now` minus `createdAt`, and
once `hangupAt` is set it is `hangupAt` minus `createdAt`, both rounded
to whole seconds; for the §8 example call (created 1000, hung up 1010,
both milliseconds) the duration after hangup is 0, not 5. -/
theorem C9_duration_amended (c : Call) (now x : Int) :
    (c.hangupAt = 0 → duration c now = mathRound (now - c.createdAt))
    ∧ (c.hangupAt ≠ 0 → duration c now = mathRound (c.hangupAt - c.createdAt))
    ∧ duration { c with answeredAt := x } now = duration c now
    ∧ duration exampleHungup now = 0 := by
  refine ⟨?_, ?_, ?_, ?_⟩
  · intro h
    simp [duration, h]
  · intro h
    simp [duration, h]
  · simp [duration]
  · have h1 : exampleHungup.hangupAt = 1010 := by decide
    have h2 : exampleHungup.createdAt = 1000 := by decide
    simp [duration, h1, h2]
    decide

/-- Witness for the amended C9: before hangup the §8 call's duration is
measured against `now` (4000 ms - 1000 ms rounds to 3 s), after hangup
against `hangupAt` (10 ms rounds to 0 s), ignoring `answeredAt`. -/
theorem C9_duration_amended_witness :
    duration exampleRinging 4000 = mathRound (4000 - exampleRinging.createdAt)
    ∧ duration exampleHungup 4000 = mathRound (exampleHungup.hangupAt - exampleHungup.createdAt)
    ∧ duration { exampleHungup with answeredAt := 7777 } 4000 = duration exampleHungup 4000
    ∧ duration exampleRinging 4000 = 3 := by
  refine ⟨?_, ?_, ?_, ?_⟩
  · exact (C9_duration_amended exampleRinging 4000 0).1 (by decide)
  · exact (C9_duration_amended exampleHungup 4000 0).2.1 (by decide)
  · exact (C9_duration_amended exampleHungup 4000 7777).2.2.1
  · have h := (C9_duration_amended exampleRinging 4000 0).1 (by decide)
    rw [h]
    decide

/-- C10: `Call.mute(m)` awaits the `call_mute` request before assigning
the flag: on a resolved request the flag becomes `m` (and nothing else
changes but the flag), and on a rejected request the whole call —
including the `muted` getter — is exactly as before while the error
propagates to the caller. -/
theorem C10_mute_after_resolve (c : Call) (m : Bool) (r err : String) :
    mute c m (Except.ok r) = ({ c with mutedFlag := m }, Except.ok r)
    ∧ muted (mute c m (Except.ok r)).1 = m
    ∧ (mute c m (Except.error err)).1 = c
    ∧ muted (mute c m (Except.error err)).1 = muted c
    ∧ (mute c m (Except.error err)).2 = Except.error err := by
  exact ⟨rfl, rfl, rfl, rfl, rfl⟩
